import Mathlib

/-
  Verification of the poker orchestration core (src/main.py, src/players/base_player.py,
  src/players/player_factory.py) against its natural-language specification.

  The Python code is shallowly embedded: strings are modelled as `List Char`,
  Python exceptions as an explicit `PyExc` error type threaded through `Except`,
  and Python integer arithmetic as `Int`/`Nat` (all amounts here are small and
  non-negative, so no overflow modelling is needed; Python ints are unbounded).
-/

namespace Poker

/-- Python exception kinds relevant to the embedded code paths.
`indexError` models `IndexError` (out-of-range subscript), `valueError` models
`ValueError` (e.g. `int()` on a malformed string, or `raise ValueError(...)`). -/
inductive PyExc where
  | indexError
  | valueError
deriving DecidableEq, Repr

/-- Python `str.isspace` characters stripped by `str.strip()` (ASCII range:
space, tab, newline, carriage return, vertical tab, form feed). -/
def isPySpace (c : Char) : Bool :=
  c = ' ' || c = '\t' || c = '\n' || c = '\r' || c = '\x0b' || c = '\x0c'

/-- Model of Python `str.strip()`: drop whitespace from both ends. -/
def pyStrip (s : List Char) : List Char :=
  ((s.dropWhile isPySpace).reverse.dropWhile isPySpace).reverse

/-- Model of Python `str.split(sep)` for a one-character separator `sep`:
`"a@b".split('@') == ["a","b"]`, `"blah".split('@') == ["blah"]`,
`"".split('@') == [""]`.  The result is never the empty list. -/
def pySplit (sep : Char) : List Char → List (List Char)
  | [] => [[]]
  | c :: rest =>
    let r := pySplit sep rest
    if c = sep then [] :: r
    else (c :: r.headD []) :: r.tail

/-- Decimal value of a digit string, as computed by Python `int` on `\d+`. -/
def charsVal (ds : List Char) : Nat :=
  ds.foldl (fun a c => 10 * a + (c.toNat - '0'.toNat)) 0

/-- Python `int(s)` on an already-stripped string consisting of an optional
sign followed by decimal digits; `none` models the `ValueError` that
`int` raises on any other input. -/
def pyIntDigits (s : List Char) : Option Nat :=
  if s ≠ [] ∧ s.all Char.isDigit then some (charsVal s) else none

/-- Model of Python `int(s)` for stripped inputs (the only call site,
`int(tok.split(":")[1].strip())` in `PromptAdapter.apply_token`, strips first). -/
def pyInt (s : List Char) : Option Int :=
  if s.headD ' ' = '-' then (pyIntDigits s.tail).map (fun n => -(n : Int))
  else if s.headD ' ' = '+' then (pyIntDigits s.tail).map (fun n => (n : Int))
  else (pyIntDigits s).map (fun n => (n : Int))

/-! ### SeatMapper (src/main.py:164-167 and src/main.py:323-329)

`GameOrchestrator.get_players_in_position_order` dispatches seat `i` to agent
`(i + dealer_position) % K`, and the performance summary in
`GameOrchestrator.run` attributes agent `idx` to seat `(idx - dealer_pos) % K`.
Python `%` on a positive modulus agrees with Lean's `Int.emod`. -/

/-- Seat-to-agent mapping used when dispatching decisions:
`self.players[(i + self.dealer_position) % len(self.players)]` (src/main.py:166). -/
def seat_to_agent (seat offset k : Int) : Int := (seat + offset) % k

/-- Agent-to-seat mapping used when attributing recorded per-seat profits:
`player_position = (idx - dealer_pos) % len(self.players)` (src/main.py:327). -/
def agent_to_seat (agent offset k : Int) : Int := (agent - offset) % k

/-! ### Stack validation (src/main.py:133-141)

`GameOrchestrator._make_state` iterates over the starting stacks and raises
`ValueError(f"Invalid stack size: ...")` at the first non-positive stack,
before any engine state is constructed; the error payload below is the
offending stack value named in that message. -/

/-- Model of the stack-validation loop in `GameOrchestrator._make_state`:
`for i in stacks: if i <= 0: raise ValueError(...)`.  An `error i` outcome
means the round is aborted before the engine state is built. -/
def make_state_stack_check : List Int → Except Int Unit
  | [] => .ok ()
  | i :: rest => if i ≤ 0 then .error i else make_state_stack_check rest

/-! ### MemoryManager summary bound (src/players/base_player.py:360-375)

`BasePlayer.update_memory` appends the rendered summary and then truncates:
`if len(self.hand_summaries) > 5: self.hand_summaries = self.hand_summaries[-5:]`.
The summary text itself is opaque for the bound, so it is a type parameter. -/

/-- Effect of one `update_memory` call on the `hand_summaries` field:
append the new summary, then keep only the last 5 entries if the list
exceeds 5 (src/players/base_player.py:371-375). -/
def update_memory_summaries {σ : Type} (hand_summaries : List σ) (summary : σ) : List σ :=
  let appended := hand_summaries ++ [summary]
  if 5 < appended.length then appended.drop (appended.length - 5) else appended

/-! ### Response interpretation (src/main.py:24, src/main.py:98-107, src/main.py:234-258, 287-289)

The betting loop takes one raw provider response per turn, splits it on the
first `@`, validates the stripped candidate token against
`LEGAL_TOKEN_RE = re.compile(r"^(fold|check|call|raise_to:\s*\d+)$")`,
substitutes `fold` for an invalid token, and hands the result to
`PromptAdapter.apply_token`, whose engine-mutator invocation is wrapped in
`try: ... except Exception: st.fold()`. -/

/-- Core of `LEGAL_TOKEN_RE` without the end anchor: the token is exactly
`fold`, `check`, `call`, or `raise_to:` followed by optional whitespace
(`\s*`, which in Python also matches newlines) and at least one digit. -/
def legalCore (s : List Char) : Bool :=
  s = "fold".toList || s = "check".toList || s = "call".toList ||
  ("raise_to:".toList.isPrefixOf s &&
    (!((s.drop 9).dropWhile isPySpace).isEmpty &&
      ((s.drop 9).dropWhile isPySpace).all Char.isDigit))

/-- Model of `LEGAL_TOKEN_RE.match(s)` (src/main.py:24): `re.match` anchors at
the start and the pattern ends with `$`, which in Python (without
`re.MULTILINE`) matches at the end of the string or just before a trailing
newline. -/
def legalTokenRe (s : List Char) : Bool :=
  legalCore s ||
  (match s.reverse with
   | '\n' :: r => legalCore r.reverse
   | _ => false)

/-- Engine mutator invocations issued by `PromptAdapter.apply_token`
(src/main.py:98-107): `st.fold()`, `st.check_or_call()`, or
`st.complete_bet_or_raise_to(amount)`. -/
inductive EngineMutator where
  | foldM
  | checkOrCallM
  | raiseToM (amount : Int)
deriving DecidableEq, Repr

/-- Model of `PromptAdapter.apply_token` (src/main.py:98-107): dispatch on the
token text; for a `raise_to` token the amount is `int(tok.split(":")[1].strip())`.
An `error` outcome models an exception raised before any mutator is invoked
(`IndexError` from the `[1]` subscript, `ValueError` from `int(...)`, or the
explicit `raise ValueError(tok)` on an unrecognized token). -/
def apply_token (tok : List Char) : Except PyExc EngineMutator :=
  if tok = "fold".toList then .ok .foldM
  else if "check".toList.isPrefixOf tok || "call".toList.isPrefixOf tok then .ok .checkOrCallM
  else if "raise_to".toList.isPrefixOf tok then
    match pySplit ':' tok with
    | _ :: p1 :: _ =>
      match pyInt (pyStrip p1) with
      | some n => .ok (.raiseToM n)
      | none => .error .valueError
    | _ => .error .indexError
  else .error .valueError

/-- Mutator invocations of the `try: PromptAdapter.apply_token(st, rsp) ...
except Exception: st.fold()` block (src/main.py:257-289), given the engine's
internal legality predicate `permits` for mutator calls.  If `apply_token`
raises before touching the engine, the handler folds; if the engine itself
rejects the invoked mutator, that mutator was still invoked, and the handler
then folds. -/
def engine_mutations (permits : EngineMutator → Bool) (tok : List Char) :
    List EngineMutator :=
  match apply_token tok with
  | .error _ => [.foldM]
  | .ok c => if permits c then [c] else [c, .foldM]

/-- Outcome of one turn of the betting loop for one provider response:
the action recorded in `hand_data["actions"]` (after the illegal-move
overwrite), the commentary, whether the illegal-move fallback fired, and the
engine mutators invoked. -/
structure TurnResult where
  recorded_action : List Char
  commentary : List Char
  illegal_fallback : Bool
  mutations : List EngineMutator
deriving DecidableEq, Repr

/-- The `try:` body of the response parse (src/main.py:236):
`rsp.split('@')[0].strip(), rsp.split('@')[1]`.  When the response contains no
`@`, the `[1]` subscript raises `IndexError`. -/
def parse_response_try (rsp : List Char) : Except PyExc (List Char × List Char) :=
  match pySplit '@' rsp with
  | p0 :: p1 :: _ => .ok (pyStrip p0, p1)
  | _ => .error .indexError

/-- The parse step with its handler (src/main.py:235-249): the `except`
clause catches only `ValueError`, in which case the whole stripped response
becomes the token with empty commentary; any other exception propagates. -/
def parse_response (rsp : List Char) : Except PyExc (List Char × List Char) :=
  match parse_response_try rsp with
  | .ok r => .ok r
  | .error .valueError => .ok (pyStrip rsp, [])
  | .error e => .error e

/-- One turn of the betting loop (src/main.py:234-258 plus the application
block at 257-289): parse, validate against `LEGAL_TOKEN_RE`, substitute `fold`
on an invalid token (also overwriting the recorded action), then apply.  The
loop consumes exactly one provider response per turn; there is no retry path. -/
def turn_step (permits : EngineMutator → Bool) (rsp : List Char) :
    Except PyExc TurnResult :=
  match parse_response rsp with
  | .error e => .error e
  | .ok (tok, commentary) =>
    let illegal := !(legalTokenRe tok)
    let act := if illegal then "fold".toList else tok
    .ok { recorded_action := act, commentary := commentary,
          illegal_fallback := illegal,
          mutations := engine_mutations permits act }

/-! ### Legal-move derivation (src/main.py:81-96)

`PromptAdapter.legal_tokens` reads the engine predicates `can_fold()`,
`can_check_or_call()`, the amount `checking_or_calling_amount`, and renders
the raise entry `f"raise_to: {min_raise} to {stack}"` unconditionally. -/

/-- Decimal rendering of a number, as Python string interpolation does. -/
def natChars (n : Nat) : List Char := (Nat.repr n).toList

/-- The raise entry `f"raise_to: {min_raise} to {st.stacks[st.actor_index]}"`
appended unconditionally by `PromptAdapter.legal_tokens` (src/main.py:93-94). -/
def raise_token (minRaise stack : Nat) : List Char :=
  "raise_to: ".toList ++ natChars minRaise ++ " to ".toList ++ natChars stack

/-- The engine-state fields that `PromptAdapter.legal_tokens` consults:
the fold and check-or-call predicates, the amount owed to call, the minimum
completion/raise-to amount, and the acting seat's stack. -/
structure EngineView where
  can_fold : Bool
  can_check_or_call : Bool
  checking_or_calling_amount : Nat
  min_raise_to : Nat
  actor_stack : Nat

/-- Model of `PromptAdapter.legal_tokens` (src/main.py:81-96): `fold` if
foldable; then, if checking or calling is possible, `check` when the amount
owed is 0 and `call` otherwise; then always the raise entry. -/
def legal_tokens (st : EngineView) : List (List Char) :=
  (if st.can_fold then ["fold".toList] else []) ++
  ((if st.can_check_or_call then
      [if st.checking_or_calling_amount = 0 then "check".toList else "call".toList]
    else []) ++
  [raise_token st.min_raise_to st.actor_stack])

/-- The raise entry starts with `r`, hence is never the `check` token. -/
theorem raise_token_ne_check (m s : Nat) : raise_token m s ≠ "check".toList := by
  intro h
  have h0 : (raise_token m s).headD ' ' = 'r' := rfl
  rw [h] at h0
  exact absurd h0 (by decide)

/-- The raise entry starts with `r`, hence is never the `call` token. -/
theorem raise_token_ne_call (m s : Nat) : raise_token m s ≠ "call".toList := by
  intro h
  have h0 : (raise_token m s).headD ' ' = 'r' := rfl
  rw [h] at h0
  exact absurd h0 (by decide)

/-- Symmetric orientation of `raise_token_ne_check`. -/
theorem check_ne_raise_token (m s : Nat) : "check".toList ≠ raise_token m s :=
  (raise_token_ne_check m s).symm

/-- Symmetric orientation of `raise_token_ne_call`. -/
theorem call_ne_raise_token (m s : Nat) : "call".toList ≠ raise_token m s :=
  (raise_token_ne_call m s).symm

/-! ### Match-level illegal-move reporting (src/main.py:312-321)

`GameOrchestrator.run` initializes `illegal_moves_count = 0`, runs the hands
(`_play_hand` never references this counter, and `BasePlayer.illegal_moves`,
initialized at src/players/base_player.py:43, is never incremented anywhere),
and then prints `f"Illegal moves: ..."` with the unchanged counter. -/

/-- The illegal-move count reported by `GameOrchestrator.run`: the counter
starts at 0 and the per-hand loop body does not modify it, for any list of
hands (each hand being the list of its turns' provider responses). -/
def run_reported_illegal_moves (hands : List (List (List Char))) : Nat :=
  hands.foldl (fun count _hand => count) 0

/-- Number of illegal-move fallbacks that actually occur in one hand,
counting the turns whose `turn_step` fires the fallback branch. -/
def hand_fallback_count (permits : EngineMutator → Bool)
    (responses : List (List Char)) : Nat :=
  responses.countP (fun r =>
    match turn_step permits r with
    | .ok t => t.illegal_fallback
    | .error _ => false)

/-- Total number of illegal-move fallbacks across a match. -/
def total_fallback_count (permits : EngineMutator → Bool)
    (hands : List (List (List Char))) : Nat :=
  (hands.map (hand_fallback_count permits)).sum

/-! ### Notes handling in make_decision (src/players/base_player.py:156-173, 268-274)

`BasePlayer.make_decision` splits the provider response on newlines, scans for
the first line starting with `NOTES:`, and if found passes
`"\n".join(note_line[6:].strip() for note_line in note_lines)` to
`update_notes` and returns only `lines[0]`; otherwise it returns the whole
response. -/

/-- The scanning loop of `BasePlayer.make_decision` (lines 162-165): the
suffix `lines[i:]` starting at the first line with the `NOTES:` prefix. -/
def find_note_lines : List (List Char) → Option (List (List Char))
  | [] => none
  | l :: rest =>
    if "NOTES:".toList.isPrefixOf l then some (l :: rest)
    else find_note_lines rest

/-- Model of the notes handling in `BasePlayer.make_decision`: the returned
action and the note-update payload passed to `update_notes` (if any).  The
payload takes every line from the marker onward, removes its first 6
characters (`note_line[6:]`), strips it, and joins with newlines. -/
def make_decision_notes (response : List Char) : List Char × Option (List Char) :=
  match find_note_lines (pySplit '\n' response) with
  | some note_lines =>
    ((pySplit '\n' response).headD [],
      some (List.intercalate ['\n'] (note_lines.map (fun l => pyStrip (l.drop 6)))))
  | none => (response, none)

/-- Model of `BasePlayer.update_notes` (src/players/base_player.py:268-274):
a non-empty payload is appended to the notes after a newline; an empty
payload is ignored. -/
def update_notes (notes new_notes : List Char) : List Char :=
  if new_notes = [] then notes else notes ++ '\n' :: new_notes

/-- Claim C7's reading of the note-update, following the claim's words: the
lines from the marker line onward with the marker prefix `NOTES:` stripped
from the marker line (whitespace-stripped there, as the claim's own example
requires) and the subsequent lines unchanged, joined by newlines. -/
def note_update_claimed (response : List Char) : Option (List Char) :=
  match find_note_lines (pySplit '\n' response) with
  | some (m :: rest) => some (List.intercalate ['\n'] (pyStrip (m.drop 6) :: rest))
  | some [] => none
  | none => none

/-! ### PlayerFactory (src/players/player_factory.py)

`create_player` validates the provider against the keys of
`SUPPORTED_MODELS`, defaults the model to the provider's first entry,
validates the model, and then dispatches on the provider name with
construction branches only for openai, gemini and anthropic; any other
provider that survives validation (namely `grok`) falls through to
`raise ValueError(f"Unknown provider: ...")`. -/

/-- `PlayerFactory.SUPPORTED_MODELS` (src/players/player_factory.py:14-19). -/
def SUPPORTED_MODELS : List (String × List String) :=
  [("openai", ["gpt-4o-mini"]),
   ("gemini", ["gemini-pro", "gemini-pro-vision"]),
   ("anthropic", ["claude-3-7-sonnet-latest", "claude-3-5-haiku-latest",
     "claude-opus-4-20250514", "claude-sonnet-4-20250514"]),
   ("grok", ["grok-4"])]

/-- `PlayerFactory.get_supported_providers` (src/players/player_factory.py:21-24). -/
def get_supported_providers : List String := SUPPORTED_MODELS.map (fun p => p.1)

/-- The player object built by a successful `create_player` dispatch.
The provider-specific constructors are modelled as succeeding (their own
environment checks are out of scope here). -/
inductive PlayerObj where
  | openaiPlayer (name model : String)
  | geminiPlayer (name model : String)
  | anthropicPlayer (name model : String)
deriving DecidableEq, Repr

/-- `model = cls.SUPPORTED_MODELS[provider][0]` when no model is given
(src/players/player_factory.py:62-63; every entry's list is non-empty). -/
def default_model (models : List String) : Option String → String
  | some m => m
  | none => models.headD ""

/-- Model of `PlayerFactory.create_player` (src/players/player_factory.py:31-81).
An `error` outcome carries the head of the corresponding `ValueError` message
(the model-validation message is abbreviated). -/
def create_player (name provider : String) (model? : Option String) :
    Except String PlayerObj :=
  match SUPPORTED_MODELS.lookup provider with
  | none => .error ("Unsupported provider: " ++ provider)
  | some models =>
    if default_model models model? ∈ models then
      (if provider = "openai" then .ok (.openaiPlayer name (default_model models model?))
       else if provider = "gemini" then .ok (.geminiPlayer name (default_model models model?))
       else if provider = "anthropic" then
         .ok (.anthropicPlayer name (default_model models model?))
       else .error ("Unknown provider: " ++ provider))
    else .error ("Model not supported: " ++ default_model models model?)

/-- Engine legality predicate that permits a raise exactly when the amount
lies in the closed range `[lo, hi]` (and permits folding and checking). -/
def permits_raise_range (lo hi : Int) : EngineMutator → Bool
  | .raiseToM n => decide (lo ≤ n) && decide (n ≤ hi)
  | _ => true

/-! ## Theorems -/

/-- Characters accepted by `str.isdigit` in the token grammar are not
whitespace. -/
theorem isDigit_not_pySpace {c : Char} (h : c.isDigit = true) : isPySpace c = false := by
  cases hs : isPySpace c
  · rfl
  · exfalso
    simp only [isPySpace, Bool.or_eq_true, decide_eq_true_eq] at hs
    rcases hs with ((((h1 | h1) | h1) | h1) | h1) | h1 <;> subst h1 <;>
      exact absurd h (by decide)

/-- Dropping a satisfying prefix block: if every element of `l` satisfies `p`,
`dropWhile p` over `l ++ t` continues into `t`. -/
theorem dropWhile_append_all {p : Char → Bool} :
    ∀ {l : List Char}, l.all p = true → ∀ t, (l ++ t).dropWhile p = t.dropWhile p := by
  intro l
  induction l with
  | nil => intro _ t; rfl
  | cons a l ih =>
    intro h t
    simp only [List.all_cons, Bool.and_eq_true] at h
    simp only [List.cons_append, List.dropWhile_cons, h.1, if_true]
    exact ih h.2 t

/-- `dropWhile` leaves a list alone when its head fails the predicate. -/
theorem dropWhile_eq_self_of_head {p : Char → Bool} {d : Char} {r : List Char}
    (h : p d = false) : (d :: r).dropWhile p = d :: r := by
  simp [List.dropWhile_cons, h]

/-- Dropping leading whitespace from whitespace-then-digits yields the digits. -/
theorem dropWhile_space_digits {ws ds : List Char}
    (hws : ws.all isPySpace = true) (hne : ds ≠ []) (hds : ds.all Char.isDigit = true) :
    (ws ++ ds).dropWhile isPySpace = ds := by
  have hmem : ∀ c ∈ ds, c.isDigit = true := List.all_eq_true.mp hds
  rw [dropWhile_append_all hws]
  cases ds with
  | nil => exact absurd rfl hne
  | cons d r =>
    exact dropWhile_eq_self_of_head (isDigit_not_pySpace (hmem d (List.mem_cons_self d r)))

/-- Stripping a string made of whitespace followed by a non-empty digit block
yields exactly the digit block (`" 999999".strip() == "999999"`). -/
theorem pyStrip_space_digits {ws ds : List Char}
    (hws : ws.all isPySpace = true) (hne : ds ≠ []) (hds : ds.all Char.isDigit = true) :
    pyStrip (ws ++ ds) = ds := by
  have hmem : ∀ c ∈ ds, c.isDigit = true := List.all_eq_true.mp hds
  have h1 : (ws ++ ds).dropWhile isPySpace = ds := dropWhile_space_digits hws hne hds
  have h2 : ds.reverse.dropWhile isPySpace = ds.reverse := by
    cases hrev : ds.reverse with
    | nil =>
      rfl
    | cons e r =>
      have he : e ∈ ds := by
        have : e ∈ ds.reverse := hrev ▸ List.mem_cons_self e r
        exact List.mem_reverse.mp this
      exact dropWhile_eq_self_of_head (isDigit_not_pySpace (hmem e he))
  unfold pyStrip
  rw [h1, h2, List.reverse_reverse]

/-- A list is a Boolean prefix of itself followed by anything. -/
theorem isPrefixOf_append_self (l t : List Char) : (l.isPrefixOf (l ++ t)) = true := by
  induction l with
  | nil => simp [List.isPrefixOf]
  | cons a r ih => simp [List.isPrefixOf, List.cons_append, ih]

/-- Python `str.split(sep)` splits off the segment before the first separator. -/
theorem pySplit_append_sep {sep : Char} :
    ∀ {s : List Char}, sep ∉ s → ∀ t, pySplit sep (s ++ sep :: t) = s :: pySplit sep t := by
  intro s
  induction s with
  | nil =>
    intro _ t
    simp [pySplit]
  | cons c rest ih =>
    intro h t
    have hc : ¬ c = sep := fun he => h (he ▸ List.mem_cons_self c rest)
    have hr : sep ∉ rest := fun hm => h (List.mem_cons_of_mem c hm)
    simp [pySplit, hc, ih hr t]

/-- Python `int` on a non-empty all-digit string returns its decimal value. -/
theorem pyInt_digits {ds : List Char} (hne : ds ≠ []) (hds : ds.all Char.isDigit = true) :
    pyInt ds = some ((charsVal ds : Int)) := by
  cases ds with
  | nil => exact absurd rfl hne
  | cons d r =>
    have hd : d.isDigit = true :=
      List.all_eq_true.mp hds d (List.mem_cons_self d r)
    have hdm : ¬ d = '-' := by intro he; subst he; exact absurd hd (by decide)
    have hdp : ¬ d = '+' := by intro he; subst he; exact absurd hd (by decide)
    simp [pyInt, pyIntDigits, hdm, hdp, hds]

/-- A space-then-digits tail contains no colon, no `@`, and no newline. -/
theorem space_digits_not_mem {ws ds : List Char} {c : Char}
    (hws : ws.all isPySpace = true) (hds : ds.all Char.isDigit = true)
    (hcs : isPySpace c = false) (hcd : c.isDigit = false) : c ∉ ws ++ ds := by
  intro hmem
  rcases List.mem_append.mp hmem with hin | hin
  · exact absurd (List.all_eq_true.mp hws c hin) (by simp [hcs])
  · exact absurd (List.all_eq_true.mp hds c hin) (by simp [hcd])

/-- Python `str.split(sep)` on a string that does not contain the separator
returns the one-element list holding the whole string. -/
theorem pySplit_of_not_mem {sep : Char} :
    ∀ {s : List Char}, sep ∉ s → pySplit sep s = [s] := by
  intro s
  induction s with
  | nil => intro _; rfl
  | cons c rest ih =>
    intro h
    have hc : ¬ c = sep := fun he => h (he ▸ List.mem_cons_self c rest)
    have hr : sep ∉ rest := fun hm => h (List.mem_cons_of_mem c hm)
    simp [pySplit, hc, ih hr]

/-- For every response without `@`, the parse step raises an uncaught
`IndexError`: `rsp.split('@')` has a single element, the `[1]` subscript
raises, and the handler catches only `ValueError`. -/
theorem parse_response_of_no_at {rsp : List Char} (h : '@' ∉ rsp) :
    parse_response rsp = .error PyExc.indexError := by
  simp [parse_response, parse_response_try, pySplit_of_not_mem h]

/-- Claim C1 (failing input): on the '@'-free response `"blah"`, the
interpretation step does not fall back to the whole stripped string — the
`IndexError` raised by `rsp.split('@')[1]` escapes the `except ValueError`
handler, so the turn (and hand) aborts instead of auto-folding. -/
theorem c1_no_at_response_raises :
    parse_response ("blah".toList) = .error PyExc.indexError ∧
    turn_step (fun _ => true) ("blah".toList) = .error PyExc.indexError := by
  constructor <;> rfl

/-- Claim C2: whenever the parsed candidate token fails `LEGAL_TOKEN_RE`, the
turn records `fold` as the canonical action, flags the illegal-move fallback,
and the engine mutators are computed from the literal token `"fold"` — every
mutator invoked that turn is a fold, so the failing token never reaches the
rules engine; the turn consumes exactly the one response (no re-prompt). -/
theorem c2_illegal_token_forces_fold (permits : EngineMutator → Bool)
    (rsp tok commentary : List Char)
    (hp : parse_response rsp = .ok (tok, commentary))
    (hl : legalTokenRe tok = false) :
    ∃ r : TurnResult, turn_step permits rsp = .ok r ∧
      r.recorded_action = "fold".toList ∧
      r.illegal_fallback = true ∧
      r.mutations = engine_mutations permits ("fold".toList) ∧
      ∀ m ∈ r.mutations, m = EngineMutator.foldM := by
  have hmut : ∀ m ∈ engine_mutations permits ("fold".toList), m = EngineMutator.foldM := by
    intro m hm
    have happ : apply_token ("fold".toList) = .ok .foldM := rfl
    simp only [engine_mutations, happ] at hm
    by_cases hpf : permits .foldM = true <;> simp [hpf] at hm <;> exact hm
  have hstep : turn_step permits rsp = .ok
      { recorded_action := "fold".toList, commentary := commentary,
        illegal_fallback := true,
        mutations := engine_mutations permits ("fold".toList) } := by
    simp [turn_step, hp, hl]
  exact ⟨_, hstep, rfl, rfl, rfl, hmut⟩

/-- Witness for C2 on the response `"blah@oops"` (token `"blah"`, commentary
`"oops"`), with an engine that permits every mutator. -/
theorem c2_illegal_token_forces_fold_witness :
    ∃ r : TurnResult, turn_step (fun _ => true) ("blah@oops".toList) = .ok r ∧
      r.recorded_action = "fold".toList ∧
      r.illegal_fallback = true ∧
      r.mutations = engine_mutations (fun _ => true) ("fold".toList) ∧
      ∀ m ∈ r.mutations, m = EngineMutator.foldM :=
  c2_illegal_token_forces_fold (fun _ => true)
    ("blah@oops".toList) ("blah".toList) ("oops".toList) rfl rfl

/-- Claim C3 (counterexample): with the engine's legal raise range being
4..100, the response `"raise_to: 999999@value"` passes validation untouched
(no fallback) and the engine's raise mutator is invoked with the out-of-range
amount 999999 — the amount is not filtered out before `apply_token` calls the
raise mutator; only the subsequent engine rejection triggers the fold
recovery. -/
theorem c3_counterexample_out_of_range_raise_reaches_engine :
    permits_raise_range 4 100 (.raiseToM 999999) = false ∧
    turn_step (permits_raise_range 4 100) ("raise_to: 999999@value".toList) = .ok
      { recorded_action := "raise_to: 999999".toList,
        commentary := "value".toList,
        illegal_fallback := false,
        mutations := [.raiseToM 999999, .foldM] } := by
  constructor <;> rfl

/-- Claim C3 (amended): token validation is purely syntactic.  Every token of
the form `raise_to:` + whitespace + digits passes `LEGAL_TOKEN_RE` regardless
of the engine's legal raise range, `apply_token` invokes the engine's raise
mutator with exactly the parsed amount, and only if the engine itself rejects
that call does the exception handler issue a fold. -/
theorem c3_amended_validation_is_syntactic (permits : EngineMutator → Bool)
    (ws ds : List Char) (hws : ws.all isPySpace = true)
    (hne : ds ≠ []) (hds : ds.all Char.isDigit = true) :
    legalTokenRe ("raise_to:".toList ++ (ws ++ ds)) = true ∧
    apply_token ("raise_to:".toList ++ (ws ++ ds)) =
      .ok (.raiseToM ((charsVal ds : Int))) ∧
    engine_mutations permits ("raise_to:".toList ++ (ws ++ ds)) =
      .raiseToM ((charsVal ds : Int)) ::
        (if permits (.raiseToM ((charsVal ds : Int))) then [] else [.foldM]) := by
  have hie : ds.isEmpty = false := by
    cases ds with
    | nil => exact absurd rfl hne
    | cons d r => rfl
  have hdrop : ("raise_to:".toList ++ (ws ++ ds)).drop 9 = ws ++ ds := by
    have h9 : ("raise_to:".toList).length = 9 := rfl
    rw [← h9, List.drop_left]
  have hdw : (ws ++ ds).dropWhile isPySpace = ds := dropWhile_space_digits hws hne hds
  have hcore : legalCore ("raise_to:".toList ++ (ws ++ ds)) = true := by
    have hpre : ("raise_to:".toList.isPrefixOf ("raise_to:".toList ++ (ws ++ ds))) = true :=
      isPrefixOf_append_self _ _
    simp [legalCore, hpre, hdrop, hdw, hie, hds]
  have hre : legalTokenRe ("raise_to:".toList ++ (ws ++ ds)) = true := by
    unfold legalTokenRe
    rw [hcore]
    rfl
  have hnocolon : ':' ∉ ws ++ ds :=
    space_digits_not_mem hws hds (by decide) (by decide)
  have happ : apply_token ("raise_to:".toList ++ (ws ++ ds)) =
      .ok (.raiseToM ((charsVal ds : Int))) := by
    have hf : ¬ ("raise_to:".toList ++ (ws ++ ds) = "fold".toList) := by
      intro he
      have h2 : ('r' : Char) = 'f' := congrArg (fun l => l.headD ' ') he
      exact absurd h2 (by decide)
    have hcc : ("check".toList.isPrefixOf ("raise_to:".toList ++ (ws ++ ds)) ||
        "call".toList.isPrefixOf ("raise_to:".toList ++ (ws ++ ds))) = false := rfl
    have hrt : ("raise_to".toList.isPrefixOf ("raise_to:".toList ++ (ws ++ ds))) = true := rfl
    have hsplit : pySplit ':' ("raise_to:".toList ++ (ws ++ ds)) =
        ["raise_to".toList, ws ++ ds] := by
      have hshow : "raise_to:".toList ++ (ws ++ ds) =
          "raise_to".toList ++ ':' :: (ws ++ ds) := rfl
      rw [hshow, pySplit_append_sep (by decide) (ws ++ ds),
        pySplit_of_not_mem hnocolon]
    unfold apply_token
    rw [if_neg hf, hcc, if_neg Bool.false_ne_true, hrt, if_pos rfl, hsplit]
    show (match pyInt (pyStrip (ws ++ ds)) with
      | some n => Except.ok (EngineMutator.raiseToM n)
      | none => Except.error PyExc.valueError) =
        Except.ok (EngineMutator.raiseToM ((charsVal ds : Int)))
    rw [pyStrip_space_digits hws hne hds, pyInt_digits hne hds]
  refine ⟨hre, happ, ?_⟩
  simp only [engine_mutations, happ]
  by_cases hp : permits (.raiseToM ((charsVal ds : Int))) = true <;> simp [hp]

/-- Witness for the amended C3 at `ws = " "`, `ds = "999999"`, with the
range-checking engine predicate for range 4..100. -/
theorem c3_amended_validation_is_syntactic_witness :
    legalTokenRe ("raise_to:".toList ++ (" ".toList ++ "999999".toList)) = true ∧
    apply_token ("raise_to:".toList ++ (" ".toList ++ "999999".toList)) =
      .ok (.raiseToM ((charsVal ("999999".toList) : Int))) ∧
    engine_mutations (permits_raise_range 4 100)
        ("raise_to:".toList ++ (" ".toList ++ "999999".toList)) =
      .raiseToM ((charsVal ("999999".toList) : Int)) ::
        (if permits_raise_range 4 100 (.raiseToM ((charsVal ("999999".toList) : Int)))
          then [] else [.foldM]) :=
  c3_amended_validation_is_syntactic (permits_raise_range 4 100)
    (" ".toList) ("999999".toList) rfl (by decide) rfl

/-- Claim C4 (failing input): the counter printed by `GameOrchestrator.run`
is 0 for every match, while a match of one hand containing one grammar-failing
response (`"blah@x"`) has one illegal-move fallback. -/
theorem c4_reported_count_never_incremented :
    (∀ hands : List (List (List Char)), run_reported_illegal_moves hands = 0) ∧
    total_fallback_count (fun _ => true) [["blah@x".toList]] = 1 := by
  constructor
  · intro hands
    induction hands with
    | nil => rfl
    | cons h t ih => exact ih
  · rfl

/-- Claim C5: the seat-to-agent mapping `(seat + offset) % K` used when
dispatching decisions and the agent-to-seat mapping `(agent - offset) % K`
used when attributing per-seat profits are mutually inverse for every
player count K ≥ 2, every rotation offset, and every index in 0..K-1. -/
theorem c5_seat_mapping_round_trip (k o a : Int) (hk : 2 ≤ k) (ha0 : 0 ≤ a) (hak : a < k) :
    seat_to_agent (agent_to_seat a o k) o k = a ∧
    agent_to_seat (seat_to_agent a o k) o k = a := by
  unfold seat_to_agent agent_to_seat
  constructor
  · have h1 : ((a - o) % k + o) % k = ((a - o) + o) % k := by
      rw [Int.add_emod, Int.emod_emod_of_dvd _ (dvd_refl k), ← Int.add_emod]
    rw [h1]
    have h2 : a - o + o = a := by omega
    rw [h2]
    exact Int.emod_eq_of_lt ha0 hak
  · have h1 : ((a + o) % k - o) % k = ((a + o) - o) % k := by
      rw [Int.sub_emod, Int.emod_emod_of_dvd _ (dvd_refl k), ← Int.sub_emod]
    rw [h1]
    have h2 : a + o - o = a := by omega
    rw [h2]
    exact Int.emod_eq_of_lt ha0 hak

/-- Witness for C5 at K = 3, offset = 5, agent index 2. -/
theorem c5_seat_mapping_round_trip_witness :
    seat_to_agent (agent_to_seat 2 5 3) 5 3 = 2 ∧
    agent_to_seat (seat_to_agent 2 5 3) 5 3 = 2 :=
  c5_seat_mapping_round_trip 3 5 2 (by decide) (by decide) (by decide)

/-- Claim C9: if any starting stack is non-positive, `_make_state` fails with a
hard error naming an offending stack before the round starts; if every stack is
strictly positive, the stack check passes and state construction proceeds. -/
theorem c9_stack_validation (ss : List Int) :
    ((∃ v ∈ ss, v ≤ 0) →
        ∃ v, v ∈ ss ∧ v ≤ 0 ∧ make_state_stack_check ss = .error v) ∧
    ((∀ v ∈ ss, 0 < v) → make_state_stack_check ss = .ok ()) := by
  induction ss with
  | nil =>
    constructor
    · rintro ⟨v, hv, _⟩
      exact absurd hv (List.not_mem_nil v)
    · intro _
      rfl
  | cons i rest ih =>
    constructor
    · rintro ⟨v, hv, hv0⟩
      by_cases hi : i ≤ 0
      · exact ⟨i, List.mem_cons_self i rest, hi, by simp [make_state_stack_check, hi]⟩
      · rcases List.mem_cons.mp hv with rfl | hvr
        · exact absurd hv0 hi
        · obtain ⟨w, hw, hw0, hweq⟩ := ih.1 ⟨v, hvr, hv0⟩
          exact ⟨w, List.mem_cons_of_mem i hw, hw0,
            by simp [make_state_stack_check, hi, hweq]⟩
    · intro hall
      have hi : ¬ i ≤ 0 := by
        have := hall i (List.mem_cons_self i rest)
        omega
      have := ih.2 (fun v hv => hall v (List.mem_cons_of_mem i hv))
      simp [make_state_stack_check, hi, this]

/-- Witness for C9: stacks [5, -3] trip the error on -3, stacks [5, 3] pass. -/
theorem c9_stack_validation_witness :
    (∃ v, v ∈ [(5 : Int), -3] ∧ v ≤ 0 ∧ make_state_stack_check [(5 : Int), -3] = .error v) ∧
    make_state_stack_check [(5 : Int), 3] = .ok () :=
  ⟨(c9_stack_validation [(5 : Int), -3]).1 ⟨-3, by decide, by decide⟩,
   (c9_stack_validation [(5 : Int), 3]).2 (by decide)⟩

/-- Claim C8: in every engine state where checking or calling is legal, the
legal-move derivation emits `check` exactly when the amount owed is 0 and
`call` exactly when it is positive, never both and never `call` for 0; the
two tokens together occur exactly once in the emitted list. -/
theorem c8_check_call_derivation (st : EngineView) (h : st.can_check_or_call = true) :
    ((legal_tokens st).count ("check".toList) + (legal_tokens st).count ("call".toList) = 1) ∧
    (st.checking_or_calling_amount = 0 →
      "check".toList ∈ legal_tokens st ∧ "call".toList ∉ legal_tokens st) ∧
    (st.checking_or_calling_amount ≠ 0 →
      "call".toList ∈ legal_tokens st ∧ "check".toList ∉ legal_tokens st) := by
  have d1 : "check".toList ≠ "fold".toList := by decide
  have d2 : "call".toList ≠ "fold".toList := by decide
  have d3 : "check".toList ≠ "call".toList := by decide
  have d4 : "call".toList ≠ "check".toList := by decide
  have rc : raise_token st.min_raise_to st.actor_stack ≠ ['c','h','e','c','k'] :=
    raise_token_ne_check _ _
  have rl : raise_token st.min_raise_to st.actor_stack ≠ ['c','a','l','l'] :=
    raise_token_ne_call _ _
  have rc2 : ¬(['c','h','e','c','k'] = raise_token st.min_raise_to st.actor_stack) :=
    fun he => rc he.symm
  have rl2 : ¬(['c','a','l','l'] = raise_token st.min_raise_to st.actor_stack) :=
    fun he => rl he.symm
  unfold legal_tokens
  rw [h]
  by_cases h0 : st.checking_or_calling_amount = 0 <;>
    cases hcf : st.can_fold <;>
    simp [h0, d1, d2, d3, d4, rc, rl, rc2, rl2, List.count_cons, List.count_append]

/-- Witness for C8 at a state with `to_call = 0` (check offered, call absent). -/
theorem c8_check_call_derivation_witness :
    ((legal_tokens ⟨true, true, 0, 4, 100⟩).count ("check".toList) +
      (legal_tokens ⟨true, true, 0, 4, 100⟩).count ("call".toList) = 1) ∧
    ((⟨true, true, 0, 4, 100⟩ : EngineView).checking_or_calling_amount = 0 →
      "check".toList ∈ legal_tokens ⟨true, true, 0, 4, 100⟩ ∧
      "call".toList ∉ legal_tokens ⟨true, true, 0, 4, 100⟩) ∧
    ((⟨true, true, 0, 4, 100⟩ : EngineView).checking_or_calling_amount ≠ 0 →
      "call".toList ∈ legal_tokens ⟨true, true, 0, 4, 100⟩ ∧
      "check".toList ∉ legal_tokens ⟨true, true, 0, 4, 100⟩) :=
  c8_check_call_derivation ⟨true, true, 0, 4, 100⟩ rfl

/-- Claim C6: the `hand_summaries` list never exceeds length 5 under any
sequence of `update_memory` calls, and after 7 rounds it holds exactly the 5
most recent summaries in order, oldest evicted first. -/
theorem c6_summary_bound {σ : Type} :
    (∀ rounds : List σ, (rounds.foldl update_memory_summaries []).length ≤ 5) ∧
    (∀ a1 a2 a3 a4 a5 a6 a7 : σ,
      [a1, a2, a3, a4, a5, a6, a7].foldl update_memory_summaries [] = [a3, a4, a5, a6, a7]) := by
  constructor
  · have step : ∀ (l : List σ) (x : σ), l.length ≤ 5 →
        (update_memory_summaries l x).length ≤ 5 := by
      intro l x hl
      simp only [update_memory_summaries]
      split
      · simp only [List.length_drop, List.length_append, List.length_cons, List.length_nil]
        omega
      · rename_i h
        simp only [not_lt, List.length_append, List.length_cons, List.length_nil] at h
        simp only [List.length_append, List.length_cons, List.length_nil]
        omega
    have inv : ∀ (rounds : List σ) (l : List σ), l.length ≤ 5 →
        (rounds.foldl update_memory_summaries l).length ≤ 5 := by
      intro rounds
      induction rounds with
      | nil => intro l hl; exact hl
      | cons r rest ih =>
        intro l hl
        exact ih _ (step l r hl)
    intro rounds
    exact inv rounds [] (by simp)
  · intro a1 a2 a3 a4 a5 a6 a7
    simp [update_memory_summaries]

/-- Witness for C6 at summary type Nat: seven rounds leave the last five. -/
theorem c6_summary_bound_witness :
    [1, 2, 3, 4, 5, 6, 7].foldl update_memory_summaries ([] : List Nat) = [3, 4, 5, 6, 7] :=
  c6_summary_bound.2 1 2 3 4 5 6 7

/-- Scanning skips every line without the marker and stops at the
first line carrying it. -/
theorem find_note_lines_append {pre : List (List Char)}
    (h : ∀ l ∈ pre, ("NOTES:".toList.isPrefixOf l) = false)
    (m : List Char) (suf : List (List Char))
    (hm : ("NOTES:".toList.isPrefixOf m) = true) :
    find_note_lines (pre ++ m :: suf) = some (m :: suf) := by
  induction pre with
  | nil =>
    rw [List.nil_append]
    unfold find_note_lines
    rw [hm, if_pos rfl]
  | cons p t ih =>
    have hp := h p (List.mem_cons_self p t)
    simp only [List.cons_append, find_note_lines, hp, Bool.false_eq_true, if_false]
    exact ih (fun l hl => h l (List.mem_cons_of_mem p hl))

/-- Claim C7 (counterexample): on the response
`"call\nNOTES: x\nmore stuff"` the code stores the payload `"x\ntuff"` — the
first 6 characters are chopped off the line after the marker as well — while
the claim's payload (marker prefix stripped, later lines unchanged) is
`"x\nmore stuff"`. -/
theorem c7_counterexample_payload_mangled :
    (make_decision_notes ("call\nNOTES: x\nmore stuff".toList)).2 =
      some ("x\ntuff".toList) ∧
    note_update_claimed ("call\nNOTES: x\nmore stuff".toList) =
      some ("x\nmore stuff".toList) ∧
    ("x\ntuff".toList : List Char) ≠ ("x\nmore stuff".toList) :=
  ⟨rfl, rfl, by decide⟩

/-- Claim C7 (amended): when some response line begins with `NOTES:`,
`make_decision` returns only the first line of the response as the action,
and the stored note-update is the lines from the marker line onward each with
its first 6 characters removed and surrounding whitespace stripped, joined by
newlines (for a single marker line `"NOTES: opponent folds to 3-bets"` this
payload is exactly `"opponent folds to 3-bets"`). -/
theorem c7_amended_notes_split (response : List Char)
    (pre suf : List (List Char)) (m : List Char)
    (hsplit : pySplit '\n' response = pre ++ m :: suf)
    (hpre : ∀ l ∈ pre, ("NOTES:".toList.isPrefixOf l) = false)
    (hm : ("NOTES:".toList.isPrefixOf m) = true) :
    make_decision_notes response =
      ((pre ++ m :: suf).headD [],
        some (List.intercalate ['\n']
          ((m :: suf).map (fun l => pyStrip (l.drop 6))))) := by
  unfold make_decision_notes
  rw [hsplit, find_note_lines_append hpre m suf hm]

/-- Witness for the amended C7 on the spec's example response
`"call\nNOTES: opponent folds to 3-bets"`: the action is the first line and
the payload evaluates to `"opponent folds to 3-bets"`. -/
theorem c7_amended_notes_split_witness :
    make_decision_notes ("call\nNOTES: opponent folds to 3-bets".toList) =
      ((["call".toList] ++ ("NOTES: opponent folds to 3-bets".toList) :: []).headD [],
        some (List.intercalate ['\n']
          ((("NOTES: opponent folds to 3-bets".toList) :: []).map
            (fun l => pyStrip (l.drop 6))))) :=
  c7_amended_notes_split ("call\nNOTES: opponent folds to 3-bets".toList)
    ["call".toList] [] ("NOTES: opponent folds to 3-bets".toList)
    rfl (by decide) rfl

/-- Claim C10: `create_player` can succeed only for the providers `openai`,
`gemini` and `anthropic`; the provider `grok` — although listed in
`SUPPORTED_MODELS`, so it survives provider and model validation with model
`grok-4` — reaches the final dispatch and raises
`ValueError("Unknown provider: grok")`, so the set of providers for which
creation can succeed is strictly smaller than `get_supported_providers()`. -/
theorem c10_create_player_dispatch :
    (∀ (name provider : String) (model? : Option String),
      (∃ p, create_player name provider model? = .ok p) →
        provider = "openai" ∨ provider = "gemini" ∨ provider = "anthropic") ∧
    create_player "p" "grok" (some "grok-4") = .error "Unknown provider: grok" ∧
    "grok" ∈ get_supported_providers ∧
    "grok" ∉ ["openai", "gemini", "anthropic"] := by
  refine ⟨?_, rfl, by decide, by decide⟩
  intro name provider model? h
  obtain ⟨p, hp⟩ := h
  by_cases h1 : provider = "openai"
  · exact Or.inl h1
  by_cases h2 : provider = "gemini"
  · exact Or.inr (Or.inl h2)
  by_cases h3 : provider = "anthropic"
  · exact Or.inr (Or.inr h3)
  exfalso
  unfold create_player at hp
  cases hlk : SUPPORTED_MODELS.lookup provider with
  | none =>
    rw [hlk] at hp
    exact Except.noConfusion hp
  | some models =>
    rw [hlk] at hp
    simp only [h1, h2, h3, if_false] at hp
    split at hp
    · exact Except.noConfusion hp
    · exact Except.noConfusion hp

/-- Witness for C10: creation succeeds for `openai` with its default model,
and the theorem then certifies `openai` is among the three dispatchable
providers. -/
theorem c10_create_player_dispatch_witness :
    ("openai" : String) = "openai" ∨ ("openai" : String) = "gemini" ∨
      ("openai" : String) = "anthropic" :=
  c10_create_player_dispatch.1 "p" "openai" none
    ⟨.openaiPlayer "p" "gpt-4o-mini", rfl⟩

end Poker
